/-
Verification of the gender pay gap audit script (code.py).

The script is a straight-line pandas/statsmodels analysis: it loads an
employee-level compensation dataset, derives cleaned columns (age bins,
total pay, log pay, a male dummy), computes grouped summary statistics,
fits five ordinary-least-squares regressions given by patsy formula
strings, and exports HTML/CSV reports.

This file shallowly embeds the script: rows become a structure over ℚ
(with `Option` for nullable cells), the elementwise pandas operations
become functions on rows, `groupby(...).agg(...)` becomes an explicit
association-list grouping, the patsy formula strings are carried
verbatim and parsed by the same `~` / `+` / `*` splitting patsy
performs, and the top-level statement sequence becomes a `List Step`
in program order.
-/
import Mathlib

namespace GenderPayGap

/-! ## Regression formulas (code.py lines 125, 129, 133, 177, 204)

The five formula strings passed to `smf.ols`, verbatim from the source. -/

/-- Formula of `model1` (code.py line 125): the unadjusted gap. -/
def model1_formula : String := "log_base ~ male"

/-- Formula of `model2` (code.py line 129): human-capital controls. -/
def model2_formula : String := "log_base ~ male + perfEval + C(age_bin) + C(edu)"

/-- Formula of `model3` (code.py line 133): all controls, the adjusted gap. -/
def model3_formula : String :=
  "log_base ~ male + perfEval + C(age_bin) + C(edu) + C(dept) + seniority + C(jobTitle)"

/-- `dept_formula` (code.py line 177): department interaction model. -/
def dept_formula : String :=
  "log_base ~ male*C(dept) + perfEval + C(age_bin) + C(edu) + seniority + C(jobTitle)"

/-- `job_formula` (code.py line 204): job-title interaction model. -/
def job_formula : String :=
  "log_base ~ male*C(jobTitle) + perfEval + C(age_bin) + C(edu) + seniority + C(dept)"

/-- All formulas the script passes to `smf.ols(...).fit()`, in program
order (lines 125, 129, 133, 178, 205).  These are the only five `smf.ols`
calls in code.py. -/
def fittedFormulas : List String :=
  [model1_formula, model2_formula, model3_formula, dept_formula, job_formula]

/-- Split a character list at every occurrence of the delimiter `d`
(the delimiter is dropped; `n` delimiters yield `n+1` pieces). -/
def splitOnChar (d : Char) : List Char → List (List Char)
  | [] => [[]]
  | c :: rest =>
    match splitOnChar d rest with
    | [] => if c = d then [[], []] else [[c]]
    | g :: gs => if c = d then [] :: g :: gs else (c :: g) :: gs

/-- Strip leading and trailing space characters. -/
def trimChars (cs : List Char) : List Char :=
  ((cs.dropWhile (· = ' ')).reverse.dropWhile (· = ' ')).reverse

/-- Left-hand side of a patsy formula: the text before `~`, trimmed. -/
def formulaLhs (f : String) : String :=
  ⟨trimChars ((splitOnChar '~' f.data).headD [])⟩

/-- Top-level right-hand-side terms of a patsy formula: the text after
`~`, split on `+`, each trimmed. -/
def rhsTerms (f : String) : List String :=
  (splitOnChar '+' ((splitOnChar '~' f.data).getD 1 [])).map
    (fun t => ⟨trimChars t⟩)

/-- Patsy expansion of one term: `a*b` stands for `a + b + a:b`
(both main effects plus the interaction); any other term is itself. -/
def expandTerm (t : String) : List String :=
  match splitOnChar '*' t.data with
  | [a, b] => [⟨a⟩, ⟨b⟩, ⟨a ++ ':' :: b⟩]
  | _ => [t]

/-- The regressors a formula's right-hand side contributes, after patsy
`*` expansion. -/
def regressors (f : String) : List String :=
  (rhsTerms f).flatMap expandTerm

/-- `subsetB xs ys`: every string of `xs` occurs in `ys`. -/
def subsetB (xs ys : List String) : Bool :=
  xs.all (fun x => ys.contains x)

/-! ## Cell-level operations (code.py lines 33-58)

Numeric cells are modelled as `ℚ`; a nullable cell is an `Option`.
`np.log` on IEEE doubles is modelled at the level of finiteness: the
logarithm of a positive number is finite (represented by its argument,
since only definedness and the argument matter to the claims), `log 0`
is `-inf`, and the logarithm of a negative number is `NaN`. -/

/-- Result of `np.log` on one cell: a finite logarithm (tagged with the
positive argument it was taken of), `-inf`, or `NaN`. -/
inductive LogValue where
  | finite (arg : ℚ)
  | negInf
  | nan
deriving DecidableEq

/-- `np.log x` classified: finite `ln x` for `x > 0`, `-inf` at `0`,
`NaN` for negative input. -/
def npLog (x : ℚ) : LogValue :=
  if 0 < x then .finite x else if x = 0 then .negInf else .nan

/-- Whether a `LogValue` is a finite number (neither `-inf` nor `NaN`). -/
def LogValue.isFinite : LogValue → Bool
  | .finite _ => true
  | _ => false

/-- Pandas elementwise `<` against a constant: `NaN < c` is `False`. -/
def naLt (a : Option ℚ) (c : ℚ) : Bool :=
  match a with
  | none => false
  | some x => decide (x < c)

/-- Pandas elementwise `>=` against a constant: `NaN >= c` is `False`. -/
def naGe (a : Option ℚ) (c : ℚ) : Bool :=
  match a with
  | none => false
  | some x => decide (c ≤ x)

/-- The age-binning block (code.py lines 33-38): `age_bin` starts at 0
and each `.loc` mask overwrites it where its condition holds. -/
def ageBin (age : Option ℚ) : ℕ :=
  let b := 0
  let b := if naLt age 25 then 1 else b
  let b := if naGe age 25 && naLt age 35 then 2 else b
  let b := if naGe age 35 && naLt age 45 then 3 else b
  let b := if naGe age 45 && naLt age 55 then 4 else b
  let b := if naGe age 55 then 5 else b
  b

/-- The male dummy (code.py line 49): `(gender == 'Male').astype(int)`.
A missing cell compares unequal to `'Male'`, so it is coded 0. -/
def maleOf (gender : Option String) : ℤ :=
  if gender = some "Male" then 1 else 0

/-! ## The data model (columns of the Glassdoor CSV) -/

/-- One row of the loaded CSV (code.py line 25).  `age` is nullable
because the age-binning claim distinguishes missing ages; the remaining
columns are modelled as populated. -/
structure RawRow where
  jobTitle : String
  gender : String
  age : Option ℚ
  perfEval : ℚ
  edu : String
  dept : String
  seniority : ℚ
  basePay : ℚ
  bonus : ℚ
deriving DecidableEq

/-- A row after the cleaning block (code.py lines 33-49): the derived
columns added to the raw ones.  The category casts (lines 55-58) change
only dtypes, not values. -/
structure CleanRow extends RawRow where
  age_bin : ℕ
  totalPay : ℚ
  log_base : LogValue
  log_total : LogValue
  log_bonus : LogValue
  male : ℤ
deriving DecidableEq

/-- The cleaning block applied to one row, in source order:
`age_bin` (lines 33-38), `totalPay = basePay + bonus` (line 41),
`log_base = np.log(basePay)` (line 44), `log_total = np.log(totalPay)`
(line 45), `log_bonus = np.log(bonus + 1)` (line 46),
`male = (gender == 'Male').astype(int)` (line 49). -/
def clean (r : RawRow) : CleanRow :=
  let age_bin := ageBin r.age
  let totalPay := r.basePay + r.bonus
  { r with
    age_bin := age_bin
    totalPay := totalPay
    log_base := npLog r.basePay
    log_total := npLog totalPay
    log_bonus := npLog (r.bonus + 1)
    male := maleOf (some r.gender) }

/-! ## Grouped aggregation (code.py lines 70-112)

`data.groupby(key).agg(...)` is modelled in two stages: `groupBy` scans
the rows once, routing each row to the bucket of its key (creating the
bucket on first sight), and each summary maps an aggregation over the
buckets.  The claims relate the bucket aggregates to filters over the
original rows. -/

/-- Append row `r` to the bucket of key `k`, creating the bucket at the
end if `k` has no bucket yet. -/
def addToGroup {κ α : Type} [DecidableEq κ] (k : κ) (r : α) :
    List (κ × List α) → List (κ × List α)
  | [] => [(k, [r])]
  | (k', g) :: rest =>
    if k' = k then (k', g ++ [r]) :: rest
    else (k', g) :: addToGroup k r rest

/-- Bucket the rows by their key, one left-to-right scan. -/
def groupBy {κ α : Type} [DecidableEq κ] (key : α → κ) (rows : List α) :
    List (κ × List α) :=
  rows.foldl (fun acc r => addToGroup (key r) r acc) []

/-- The bucket of key `k` in an accumulator (empty if absent). -/
def findGroup {κ α : Type} [DecidableEq κ] (k : κ) :
    List (κ × List α) → List α
  | [] => []
  | (k', g) :: rest => if k' = k then g else findGroup k rest

/-- Arithmetic mean, as pandas `mean`: sum divided by count. -/
def mean (xs : List ℚ) : ℚ :=
  xs.sum / xs.length

/-- Insertion step of an insertion sort with a boolean `le`. -/
def insertBy {α : Type} (le : α → α → Bool) (x : α) : List α → List α
  | [] => [x]
  | y :: ys => if le x y then x :: y :: ys else y :: insertBy le x ys

/-- Insertion sort with a boolean `le`. -/
def sortBy {α : Type} (le : α → α → Bool) (xs : List α) : List α :=
  xs.foldr (insertBy le) []

/-- Pandas `median`: middle element of the sorted values, or the average
of the two middle elements when the count is even.  (Pandas yields `NaN`
on an empty slice; the buckets this is applied to are nonempty, so the
0 default of the empty branch is never reached.) -/
def median (xs : List ℚ) : ℚ :=
  let s := sortBy (fun a b => decide (a ≤ b)) xs
  let n := s.length
  if n = 0 then 0
  else if n % 2 = 1 then s.getD (n / 2) 0
  else (s.getD (n / 2 - 1) 0 + s.getD (n / 2) 0) / 2

/-- One row of `summary_base` (code.py lines 70-74). -/
structure BaseAgg where
  gender : String
  meanBasePay : ℚ
  medBasePay : ℚ
  cnt : ℕ
deriving DecidableEq

/-- One row of `summary_total` (code.py lines 78-82). -/
structure TotalAgg where
  gender : String
  meanTotalPay : ℚ
  medTotalPay : ℚ
  cnt : ℕ
deriving DecidableEq

/-- One row of `summary_bonus` (code.py lines 86-90). -/
structure BonusAgg where
  gender : String
  meanBonus : ℚ
  medBonus : ℚ
  cnt : ℕ
deriving DecidableEq

/-- One row of `summary_perf` (code.py lines 94-97). -/
structure PerfAgg where
  gender : String
  meanPerf : ℚ
  cnt : ℕ
deriving DecidableEq

/-- One row of `summary_dept` (code.py lines 101-104). -/
structure DeptAgg where
  dept : String
  gender : String
  meanTotalPay : ℚ
  cnt : ℕ
deriving DecidableEq

/-- One row of `summary_job` (code.py lines 108-111). -/
structure JobAgg where
  jobTitle : String
  gender : String
  meanTotalPay : ℚ
  cnt : ℕ
deriving DecidableEq

/-- `summary_base` (lines 70-74): by gender, the mean, median and count
of `basePay`.  The columns hold no nulls in the model, so pandas `count`
is the bucket size. -/
def summary_base (rows : List CleanRow) : List BaseAgg :=
  (groupBy (fun r => r.gender) rows).map fun g =>
    { gender := g.1
      meanBasePay := mean (g.2.map (fun r => r.basePay))
      medBasePay := median (g.2.map (fun r => r.basePay))
      cnt := g.2.length }

/-- `summary_total` (lines 78-82): by gender, the mean, median and count
of `totalPay`. -/
def summary_total (rows : List CleanRow) : List TotalAgg :=
  (groupBy (fun r => r.gender) rows).map fun g =>
    { gender := g.1
      meanTotalPay := mean (g.2.map (fun r => r.totalPay))
      medTotalPay := median (g.2.map (fun r => r.totalPay))
      cnt := g.2.length }

/-- `summary_bonus` (lines 86-90): by gender, the mean, median and count
of `bonus`. -/
def summary_bonus (rows : List CleanRow) : List BonusAgg :=
  (groupBy (fun r => r.gender) rows).map fun g =>
    { gender := g.1
      meanBonus := mean (g.2.map (fun r => r.bonus))
      medBonus := median (g.2.map (fun r => r.bonus))
      cnt := g.2.length }

/-- `summary_perf` (lines 94-97): by gender, the mean and count of
`perfEval`. -/
def summary_perf (rows : List CleanRow) : List PerfAgg :=
  (groupBy (fun r => r.gender) rows).map fun g =>
    { gender := g.1
      meanPerf := mean (g.2.map (fun r => r.perfEval))
      cnt := g.2.length }

/-- Lexicographic byte-wise string order, as pandas compares strings. -/
def charsLt : List Char → List Char → Bool
  | [], [] => false
  | [], _ :: _ => true
  | _ :: _, [] => false
  | a :: as, b :: bs => if a = b then charsLt as bs else decide (a.toNat < b.toNat)

/-- The `sort_values(by=['dept', 'gender'], ascending=[False, True])`
order of line 104: department descending, gender ascending. -/
def deptAggLe (e1 e2 : DeptAgg) : Bool :=
  if e1.dept = e2.dept then !charsLt e2.gender.data e1.gender.data
  else charsLt e2.dept.data e1.dept.data

/-- The `sort_values(by=['jobTitle', 'gender'], ascending=[False, True])`
order of line 111: job title descending, gender ascending. -/
def jobAggLe (e1 e2 : JobAgg) : Bool :=
  if e1.jobTitle = e2.jobTitle then !charsLt e2.gender.data e1.gender.data
  else charsLt e2.jobTitle.data e1.jobTitle.data

/-- `summary_dept` (lines 101-104): by (dept, gender) pair, the mean of
`totalPay` and the count, then sorted by dept descending and gender
ascending (`reset_index` only turns the index back into columns). -/
def summary_dept (rows : List CleanRow) : List DeptAgg :=
  sortBy deptAggLe <|
    (groupBy (fun r => (r.dept, r.gender)) rows).map fun g =>
      { dept := g.1.1
        gender := g.1.2
        meanTotalPay := mean (g.2.map (fun r => r.totalPay))
        cnt := g.2.length }

/-- `summary_job` (lines 108-111): by (jobTitle, gender) pair, the mean
of `totalPay` and the count, then sorted by job title descending and
gender ascending. -/
def summary_job (rows : List CleanRow) : List JobAgg :=
  sortBy jobAggLe <|
    (groupBy (fun r => (r.jobTitle, r.gender)) rows).map fun g =>
      { jobTitle := g.1.1
        gender := g.1.2
        meanTotalPay := mean (g.2.map (fun r => r.totalPay))
        cnt := g.2.length }

/-! ## The top-level statement sequence (code.py lines 25-220)

The script is a module-level straight line: no function definitions, no
loops, no `try`/`except`.  Each statement becomes a `Step` tagged with
its line number and kind; `script` lists them in program order. -/

/-- What kind of work a top-level statement does.  `other` covers
prints, `describe`, and assembling result tables in memory. -/
inductive StepKind where
  | load
  | transform
  | groupedAgg
  | regression
  | export
  | other
deriving DecidableEq

/-- One top-level statement of code.py. -/
structure Step where
  line : ℕ
  kind : StepKind
  what : String
deriving DecidableEq

/-- The statements of code.py in program order (line numbers from the
source).  `export` steps carry the file they write. -/
def script : List Step :=
  [ ⟨25, .load, "read_csv"⟩
  , ⟨33, .transform, "age_bin = 0"⟩
  , ⟨34, .transform, "age_bin bin 1"⟩
  , ⟨35, .transform, "age_bin bin 2"⟩
  , ⟨36, .transform, "age_bin bin 3"⟩
  , ⟨37, .transform, "age_bin bin 4"⟩
  , ⟨38, .transform, "age_bin bin 5"⟩
  , ⟨41, .transform, "totalPay"⟩
  , ⟨44, .transform, "log_base"⟩
  , ⟨45, .transform, "log_total"⟩
  , ⟨46, .transform, "log_bonus"⟩
  , ⟨49, .transform, "male"⟩
  , ⟨52, .other, "print data.info"⟩
  , ⟨55, .transform, "jobTitle astype category"⟩
  , ⟨56, .transform, "gender astype category"⟩
  , ⟨57, .transform, "edu astype category"⟩
  , ⟨58, .transform, "dept astype category"⟩
  , ⟨66, .other, "describe"⟩
  , ⟨67, .export, "summary.html"⟩
  , ⟨70, .groupedAgg, "summary_base"⟩
  , ⟨75, .other, "print summary_base"⟩
  , ⟨78, .groupedAgg, "summary_total"⟩
  , ⟨83, .other, "print summary_total"⟩
  , ⟨86, .groupedAgg, "summary_bonus"⟩
  , ⟨91, .other, "print summary_bonus"⟩
  , ⟨94, .groupedAgg, "summary_perf"⟩
  , ⟨98, .other, "print summary_perf"⟩
  , ⟨101, .groupedAgg, "summary_dept"⟩
  , ⟨105, .other, "print summary_dept"⟩
  , ⟨108, .groupedAgg, "summary_job"⟩
  , ⟨112, .other, "print summary_job"⟩
  , ⟨125, .regression, "model1"⟩
  , ⟨126, .other, "print model1.summary"⟩
  , ⟨129, .regression, "model2"⟩
  , ⟨130, .other, "print model2.summary"⟩
  , ⟨133, .regression, "model3"⟩
  , ⟨134, .other, "print model3.summary"⟩
  , ⟨137, .other, "logbase_pay_gap"⟩
  , ⟨138, .other, "logbase_pay_pvalue"⟩
  , ⟨139, .other, "print gap"⟩
  , ⟨140, .other, "print pvalue"⟩
  , ⟨147, .other, "summary_col"⟩
  , ⟨161, .other, "results_table.as_html"⟩
  , ⟨162, .other, "insert control_info"⟩
  , ⟨165, .export, "results.html"⟩
  , ⟨178, .regression, "dept_results"⟩
  , ⟨179, .other, "print dept_results.summary"⟩
  , ⟨182, .other, "dept_results_df"⟩
  , ⟨189, .export, "dept_clean.csv"⟩
  , ⟨192, .export, "dept.html"⟩
  , ⟨205, .regression, "job_results"⟩
  , ⟨206, .other, "print job_results.summary"⟩
  , ⟨209, .other, "job_results_df"⟩
  , ⟨216, .export, "job_clean.csv"⟩
  , ⟨219, .export, "job.html"⟩
  ]

/-- Positions in `script` of the steps of kind `k`. -/
def kindIdxs (k : StepKind) : List ℕ :=
  (script.enum.filter (fun s => s.2.kind = k)).map (fun s => s.1)

/-- Every step of kind `k1` precedes every step of kind `k2`. -/
def allBefore (k1 k2 : StepKind) : Bool :=
  (kindIdxs k1).all (fun i => (kindIdxs k2).all (fun j => i < j))

/-- Position in `script` of the export writing `file` (first one). -/
def exportIdx (file : String) : ℕ :=
  ((script.enum.filter
      (fun s => s.2.kind = .export && s.2.what = file)).map (fun s => s.1)).headD 0

/-- Position in `script` of the regression fit named `name`. -/
def regIdx (name : String) : ℕ :=
  ((script.enum.filter
      (fun s => s.2.kind = .regression && s.2.what = name)).map (fun s => s.1)).headD 0

/-- The ordering claimed for the pipeline: all transforms before all
grouped aggregations, those before all regressions, those before all
exports. -/
def pipelineOrderClaim : Bool :=
  allBefore .transform .groupedAgg
    && allBefore .groupedAgg .regression
    && allBefore .regression .export

/-- Execution of a straight-line statement list with no handlers.
`f s = some e` means statement `s` raises exception `e`; execution runs
the statements in order, returns the list of completed statements, and
stops at the first raise, propagating its exception unchanged. -/
def runSteps (f : Step → Option String) : List Step → List Step × Option String
  | [] => ([], none)
  | s :: rest =>
    match f s with
    | some e => ([], some e)
    | none =>
      let p := runSteps f rest
      (s :: p.1, p.2)

/-! ## Lemmas: the bucket of a key is the filter by that key -/

theorem findGroup_addToGroup_same {κ α : Type} [DecidableEq κ]
    (k : κ) (r : α) (acc : List (κ × List α)) :
    findGroup k (addToGroup k r acc) = findGroup k acc ++ [r] := by
  induction acc with
  | nil => simp [addToGroup, findGroup]
  | cons hd rest ih =>
    obtain ⟨k', g⟩ := hd
    by_cases h : k' = k
    · simp [addToGroup, findGroup, h]
    · simp [addToGroup, findGroup, h, ih]

theorem findGroup_addToGroup_other {κ α : Type} [DecidableEq κ]
    (k' k : κ) (r : α) (acc : List (κ × List α)) (hk : k' ≠ k) :
    findGroup k' (addToGroup k r acc) = findGroup k' acc := by
  induction acc with
  | nil => simp [addToGroup, findGroup, Ne.symm hk]
  | cons hd rest ih =>
    obtain ⟨k₀, g⟩ := hd
    by_cases h : k₀ = k
    · subst h
      simp [addToGroup, findGroup, Ne.symm hk]
    · simp [addToGroup, findGroup, h, ih]

theorem findGroup_foldl {κ α : Type} [DecidableEq κ]
    (key : α → κ) (rows : List α) (acc : List (κ × List α)) (k : κ) :
    findGroup k (rows.foldl (fun a r => addToGroup (key r) r a) acc)
      = findGroup k acc ++ rows.filter (fun r => key r = k) := by
  induction rows generalizing acc with
  | nil => simp
  | cons r rows ih =>
    rw [List.foldl_cons, ih]
    by_cases h : key r = k
    · subst h
      rw [findGroup_addToGroup_same]
      simp [List.filter_cons]
    · rw [findGroup_addToGroup_other _ _ _ _ (fun he => h he.symm)]
      simp [List.filter_cons, h]

theorem mem_map_fst_addToGroup {κ α : Type} [DecidableEq κ]
    (x k : κ) (r : α) (acc : List (κ × List α)) :
    x ∈ (addToGroup k r acc).map Prod.fst ↔ x = k ∨ x ∈ acc.map Prod.fst := by
  induction acc with
  | nil => simp [addToGroup]
  | cons hd rest ih =>
    obtain ⟨k₀, g⟩ := hd
    by_cases h : k₀ = k
    · subst h
      simp [addToGroup]
    · simp [addToGroup, h, ih]
      tauto

theorem nodup_map_fst_addToGroup {κ α : Type} [DecidableEq κ]
    (k : κ) (r : α) (acc : List (κ × List α))
    (h : (acc.map Prod.fst).Nodup) : ((addToGroup k r acc).map Prod.fst).Nodup := by
  induction acc with
  | nil => simp [addToGroup]
  | cons hd rest ih =>
    obtain ⟨k₀, g⟩ := hd
    simp only [List.map_cons, List.nodup_cons] at h
    by_cases hk : k₀ = k
    · subst hk
      simpa [addToGroup] using h
    · rw [show addToGroup k r ((k₀, g) :: rest) = (k₀, g) :: addToGroup k r rest from by
        simp [addToGroup, hk]]
      rw [List.map_cons]
      refine List.nodup_cons.mpr ⟨?_, ih h.2⟩
      intro hmem
      rcases (mem_map_fst_addToGroup k₀ k r rest).mp hmem with h1 | h1
      · exact hk h1
      · exact h.1 h1

theorem nodup_map_fst_foldl {κ α : Type} [DecidableEq κ]
    (key : α → κ) (rows : List α) (acc : List (κ × List α))
    (h : (acc.map Prod.fst).Nodup) :
    (((rows.foldl (fun a r => addToGroup (key r) r a) acc)).map Prod.fst).Nodup := by
  induction rows generalizing acc with
  | nil => simpa using h
  | cons r rows ih =>
    rw [List.foldl_cons]
    exact ih _ (nodup_map_fst_addToGroup _ _ _ h)

theorem findGroup_eq_of_mem {κ α : Type} [DecidableEq κ]
    (k : κ) (g : List α) (acc : List (κ × List α))
    (hnd : (acc.map Prod.fst).Nodup) (hmem : (k, g) ∈ acc) :
    findGroup k acc = g := by
  induction acc with
  | nil => cases hmem
  | cons hd rest ih =>
    obtain ⟨k₀, g₀⟩ := hd
    simp only [List.map_cons, List.nodup_cons] at hnd
    rcases List.mem_cons.mp hmem with h | h
    · injection h with h1 h2
      subst h1
      subst h2
      simp [findGroup]
    · have hk : k₀ ≠ k := by
        intro he
        subst he
        exact hnd.1 (by simpa using List.mem_map_of_mem Prod.fst h)
      simp [findGroup, hk, ih hnd.2 h]

/-- Main grouping lemma: every bucket `groupBy` produces for a key holds
exactly the rows whose key it is, in order. -/
theorem groupBy_mem {κ α : Type} [DecidableEq κ]
    (key : α → κ) (rows : List α) (k : κ) (g : List α)
    (hmem : (k, g) ∈ groupBy key rows) :
    g = rows.filter (fun r => key r = k) := by
  have hnd : ((groupBy key rows).map Prod.fst).Nodup :=
    nodup_map_fst_foldl key rows [] (by simp)
  have h1 : findGroup k (groupBy key rows) = g :=
    findGroup_eq_of_mem k g _ hnd hmem
  have h2 := findGroup_foldl key rows [] k
  rw [groupBy] at h1
  rw [h1] at h2
  simpa [findGroup] using h2

/-- A key with a bucket in the accumulator keeps its bucket through the
rest of the scan. -/
theorem mem_map_fst_foldl_mono {κ α : Type} [DecidableEq κ]
    (key : α → κ) (x : κ) (rows : List α) (acc : List (κ × List α))
    (h : x ∈ acc.map Prod.fst) :
    x ∈ ((rows.foldl (fun a r => addToGroup (key r) r a) acc)).map Prod.fst := by
  induction rows generalizing acc with
  | nil => simpa using h
  | cons r rows ih =>
    rw [List.foldl_cons]
    exact ih _ ((mem_map_fst_addToGroup _ _ _ _).mpr (Or.inr h))

/-- Every key occurring among the rows owns a bucket. -/
theorem mem_map_fst_groupBy {κ α : Type} [DecidableEq κ]
    (key : α → κ) (rows : List α) (r : α) (hr : r ∈ rows) :
    key r ∈ (groupBy key rows).map Prod.fst := by
  have main : ∀ (l : List α) (acc : List (κ × List α)), r ∈ l →
      key r ∈ ((l.foldl (fun a x => addToGroup (key x) x a) acc)).map Prod.fst := by
    intro l
    induction l with
    | nil => intro acc h; cases h
    | cons x xs ih =>
      intro acc h
      rw [List.foldl_cons]
      rcases List.mem_cons.mp h with h | h
      · subst h
        exact mem_map_fst_foldl_mono key (key r) xs _
          ((mem_map_fst_addToGroup _ _ _ _).mpr (Or.inl rfl))
      · exact ih _ h
  exact main rows [] hr

theorem mem_insertBy {α : Type} (le : α → α → Bool) (x a : α) (l : List α) :
    a ∈ insertBy le x l ↔ a = x ∨ a ∈ l := by
  induction l with
  | nil => simp [insertBy]
  | cons y ys ih =>
    by_cases h : le x y
    · simp [insertBy, h]
    · simp [insertBy, h, ih]
      tauto

theorem mem_sortBy {α : Type} (le : α → α → Bool) (a : α) (l : List α) :
    a ∈ sortBy le l ↔ a ∈ l := by
  induction l with
  | nil => simp [sortBy]
  | cons y ys ih =>
    rw [sortBy, List.foldr_cons]
    rw [sortBy] at ih
    rw [mem_insertBy, ih]
    simp

/-- The sequential `.loc` assignments of lines 33-38 compute, for a
present age, the usual five-way binning by cutoffs 25, 35, 45, 55. -/
theorem ageBin_some_eq (x : ℚ) :
    ageBin (some x) =
      if x < 25 then 1 else if x < 35 then 2 else if x < 45 then 3
      else if x < 55 then 4 else 5 := by
  rcases lt_or_le x 25 with h1 | h1
  · have h35 : x < 35 := h1.trans (by norm_num)
    have h45 : x < 45 := h1.trans (by norm_num)
    have h55 : x < 55 := h1.trans (by norm_num)
    simp [ageBin, naLt, naGe, h1, h35, h45, h55,
      not_le.mpr h1, not_le.mpr h35, not_le.mpr h45, not_le.mpr h55]
  · rcases lt_or_le x 35 with h2 | h2
    · have h45 : x < 45 := h2.trans (by norm_num)
      have h55 : x < 55 := h2.trans (by norm_num)
      simp [ageBin, naLt, naGe, h1, h2, h45, h55, not_lt.mpr h1,
        not_le.mpr h2, not_le.mpr h45, not_le.mpr h55]
    · rcases lt_or_le x 45 with h3 | h3
      · have h55 : x < 55 := h3.trans (by norm_num)
        have h25 : (25:ℚ) ≤ x := le_trans (by norm_num) h2
        simp [ageBin, naLt, naGe, h25, h2, h3, h55, not_lt.mpr h25,
          not_lt.mpr h2, not_le.mpr h3, not_le.mpr h55]
      · rcases lt_or_le x 55 with h4 | h4
        · have h25 : (25:ℚ) ≤ x := le_trans (by norm_num) h3
          have h35 : (35:ℚ) ≤ x := le_trans (by norm_num) h3
          simp [ageBin, naLt, naGe, h25, h35, h3, h4, not_lt.mpr h25,
            not_lt.mpr h35, not_lt.mpr h3, not_le.mpr h4]
        · have h25 : (25:ℚ) ≤ x := le_trans (by norm_num) h4
          have h35 : (35:ℚ) ≤ x := le_trans (by norm_num) h4
          have h45 : (45:ℚ) ≤ x := le_trans (by norm_num) h4
          simp [ageBin, naLt, naGe, h25, h35, h45, h4, not_lt.mpr h25,
            not_lt.mpr h35, not_lt.mpr h45, not_lt.mpr h4]

/-! ## Claim theorems -/

/-- C1: the right-hand sides of the three base-pay models are strictly
increasing: model1's regressors (male only) are a strict subset of
model2's (male, perfEval, age bins, edu), which are a strict subset of
model3's (adding dept, seniority, jobTitle); every regressor of an
earlier model appears in every later model. -/
theorem controls_strictly_nested :
    subsetB (regressors model1_formula) (regressors model2_formula) = true
    ∧ subsetB (regressors model2_formula) (regressors model1_formula) = false
    ∧ subsetB (regressors model2_formula) (regressors model3_formula) = true
    ∧ subsetB (regressors model3_formula) (regressors model2_formula) = false
    ∧ subsetB (regressors model1_formula) (regressors model3_formula) = true := by
  decide

/-- C2: every one of the five fitted models regresses `log_base`, the
log of base pay (`log_base = np.log(basePay)` after cleaning); neither
`log_total` nor `log_bonus` is the outcome of any model. -/
theorem all_fits_regress_log_base :
    fittedFormulas.all (fun f => formulaLhs f = "log_base") = true
    ∧ (fittedFormulas.map formulaLhs).contains "log_total" = false
    ∧ (fittedFormulas.map formulaLhs).contains "log_bonus" = false
    ∧ ∀ r : RawRow, (clean r).log_base = npLog r.basePay :=
  ⟨by decide, by decide, by decide, fun _ => rfl⟩

/-- C3: `dept_formula` carries the `male*C(dept)` interaction term and
`job_formula` the `male*C(jobTitle)` one (each expanding to both main
effects plus the interaction), and each interaction model's regressors
include all of model3's regressors. -/
theorem interaction_models_extend_model3 :
    ("male*C(dept)" ∈ rhsTerms dept_formula
      ∧ "male:C(dept)" ∈ regressors dept_formula
      ∧ subsetB (regressors model3_formula) (regressors dept_formula) = true)
    ∧ ("male*C(jobTitle)" ∈ rhsTerms job_formula
      ∧ "male:C(jobTitle)" ∈ regressors job_formula
      ∧ subsetB (regressors model3_formula) (regressors job_formula) = true) := by
  decide

/-- C7: cleaning defines total compensation as base pay plus bonus, and
the log column `log_total` as the log of that sum. -/
theorem totalPay_eq_base_plus_bonus :
    ∀ r : RawRow, (clean r).totalPay = r.basePay + r.bonus
      ∧ (clean r).log_total = npLog (r.basePay + r.bonus) :=
  fun _ => ⟨rfl, rfl⟩

/-- C8: the male dummy is 1 exactly on the string `'Male'`; every other
cell value - `'Female'`, a missing cell, or any other string including
`'male'` - is coded 0; the cleaned `male` column is this dummy of the
gender column. -/
theorem male_dummy_coding :
    maleOf (some "Male") = 1
    ∧ (∀ g : Option String, g ≠ some "Male" → maleOf g = 0)
    ∧ (∀ r : RawRow, (clean r).male = maleOf (some r.gender)) := by
  refine ⟨rfl, fun g h => ?_, fun _ => rfl⟩
  simp [maleOf, h]

/-- Witness for C8: `'male'`, `'Female'` and a missing cell are coded 0. -/
theorem male_dummy_coding_witness :
    maleOf (some "male") = 0 ∧ maleOf (some "Female") = 0 ∧ maleOf none = 0 :=
  ⟨male_dummy_coding.2.1 (some "male") (by decide),
   male_dummy_coding.2.1 (some "Female") (by decide),
   male_dummy_coding.2.1 none (by decide)⟩

/-- C10: `log_bonus` is guarded (`np.log(bonus + 1)`) and is finite for
every bonus ≥ 0, while `log_base` and `log_total` are unguarded
(`np.log(basePay)`, `np.log(basePay + bonus)`), so a nonpositive
argument yields a non-finite value (`-inf` at 0, `NaN` below). -/
theorem log_guard_asymmetry :
    (∀ r : RawRow, (clean r).log_bonus = npLog (r.bonus + 1)
      ∧ (clean r).log_base = npLog r.basePay
      ∧ (clean r).log_total = npLog (r.basePay + r.bonus))
    ∧ (∀ b : ℚ, 0 ≤ b → (npLog (b + 1)).isFinite = true)
    ∧ (∀ p : ℚ, p ≤ 0 → (npLog p).isFinite = false) := by
  refine ⟨fun _ => ⟨rfl, rfl, rfl⟩, fun b hb => ?_, fun p hp => ?_⟩
  · have h : (0:ℚ) < b + 1 := by linarith
    simp [npLog, h, LogValue.isFinite]
  · rcases eq_or_lt_of_le hp with h | h
    · simp [npLog, h, LogValue.isFinite]
    · simp [npLog, not_lt.mpr hp, ne_of_lt h, LogValue.isFinite]

/-- Witness for C10: a zero bonus logs finitely; base pay 0 gives
`-inf`, base pay -1 gives `NaN`, neither finite. -/
theorem log_guard_asymmetry_witness :
    (npLog ((0:ℚ) + 1)).isFinite = true
    ∧ (npLog (0:ℚ)).isFinite = false
    ∧ (npLog (-1:ℚ)).isFinite = false :=
  ⟨log_guard_asymmetry.2.1 0 (by decide),
   log_guard_asymmetry.2.2 0 (by decide),
   log_guard_asymmetry.2.2 (-1) (by decide)⟩

/-- C9: `age_bin` always lands in {0,...,5}; a present age falls in
exactly one of the five cutoff bins and gets a bin in {1,...,5}; a
missing age keeps the initial 0, outside the five documented bins, and
cleaning applies exactly this binning. -/
theorem age_bin_invariant :
    (∀ a : Option ℚ, ageBin a ≤ 5)
    ∧ ageBin none = 0
    ∧ (∀ r : RawRow, (clean r).age_bin = ageBin r.age)
    ∧ (∀ x : ℚ, (1 ≤ ageBin (some x) ∧ ageBin (some x) ≤ 5)
        ∧ [decide (x < 25), decide (25 ≤ x ∧ x < 35), decide (35 ≤ x ∧ x < 45),
            decide (45 ≤ x ∧ x < 55), decide (55 ≤ x)].count true = 1) := by
  refine ⟨?_, rfl, fun _ => rfl, ?_⟩
  · intro a
    match a with
    | none => decide
    | some x =>
      rw [ageBin_some_eq]
      split_ifs <;> norm_num
  · intro x
    refine ⟨?_, ?_⟩
    · rw [ageBin_some_eq]
      split_ifs <;> norm_num
    · rcases lt_or_le x 25 with h1 | h1
      · have h35 : ¬ (35:ℚ) ≤ x := not_le.mpr (h1.trans (by norm_num))
        have h45 : ¬ (45:ℚ) ≤ x := not_le.mpr (h1.trans (by norm_num))
        have h55 : ¬ (55:ℚ) ≤ x := not_le.mpr (h1.trans (by norm_num))
        simp [h1, not_le.mpr h1, h35, h45, h55]
      · rcases lt_or_le x 35 with h2 | h2
        · have h45 : ¬ (45:ℚ) ≤ x := not_le.mpr (h2.trans (by norm_num))
          have h55 : ¬ (55:ℚ) ≤ x := not_le.mpr (h2.trans (by norm_num))
          simp [not_lt.mpr h1, h1, h2, h45, h55]
        · rcases lt_or_le x 45 with h3 | h3
          · have h25 : (25:ℚ) ≤ x := le_trans (by norm_num) h2
            have h55 : ¬ (55:ℚ) ≤ x := not_le.mpr (h3.trans (by norm_num))
            simp [not_lt.mpr h25, not_lt.mpr h2, h2, h3, h55]
          · rcases lt_or_le x 55 with h4 | h4
            · have h25 : (25:ℚ) ≤ x := le_trans (by norm_num) h3
              have h35 : (35:ℚ) ≤ x := le_trans (by norm_num) h3
              simp [not_lt.mpr h25, not_lt.mpr h35, not_lt.mpr h3, h3, h4]
            · have h25 : (25:ℚ) ≤ x := le_trans (by norm_num) h4
              have h35 : (35:ℚ) ≤ x := le_trans (by norm_num) h4
              have h45 : (45:ℚ) ≤ x := le_trans (by norm_num) h4
              simp [not_lt.mpr h25, not_lt.mpr h35, not_lt.mpr h45,
                not_lt.mpr h4, h4]

/-- C5 counterexample: the claimed order "every regression call
completes before any report export" is false of the script:
`summary.html` is written at script position 18, long before `model1`
is fit at position 31 (and `results.html`, `dept_clean.csv`, `dept.html`
are likewise written before later regressions). -/
theorem pipeline_order_claim_false :
    pipelineOrderClaim = false
    ∧ exportIdx "summary.html" = 18
    ∧ regIdx "model1" = 31
    ∧ exportIdx "summary.html" < regIdx "model1"
    ∧ exportIdx "results.html" < regIdx "dept_results"
    ∧ exportIdx "dept.html" < regIdx "job_results" := by
  decide

/-- C5 amended: the pipeline is linear with all transforms before all
grouped aggregations and those before all regressions, but the exports
interleave: `summary.html` precedes every grouped aggregation, and each
regression report (`results.html` after model1-3, the dept files after
`dept_results`, the job files after `job_results`) is written right
after its regression and before the next one. -/
theorem pipeline_order_amended :
    allBefore .transform .groupedAgg = true
    ∧ allBefore .groupedAgg .regression = true
    ∧ (kindIdxs .groupedAgg).all (fun i => exportIdx "summary.html" < i) = true
    ∧ regIdx "model1" < regIdx "model2"
    ∧ regIdx "model2" < regIdx "model3"
    ∧ regIdx "model3" < exportIdx "results.html"
    ∧ exportIdx "results.html" < regIdx "dept_results"
    ∧ regIdx "dept_results" < exportIdx "dept_clean.csv"
    ∧ exportIdx "dept_clean.csv" < exportIdx "dept.html"
    ∧ exportIdx "dept.html" < regIdx "job_results"
    ∧ regIdx "job_results" < exportIdx "job_clean.csv"
    ∧ exportIdx "job_clean.csv" < exportIdx "job.html" := by
  decide

/-- C6: the script is straight-line with no handlers: if every
statement before `s` succeeds and `s` raises exception `e`, running the
script executes exactly the statements before `s`, skips every later
one, and ends with `e` unchanged. -/
theorem exception_aborts_rest (f : Step → Option String)
    (pre post : List Step) (s : Step) (e : String)
    (hs : script = pre ++ s :: post)
    (hpre : ∀ p ∈ pre, f p = none) (hf : f s = some e) :
    runSteps f script = (pre, some e) := by
  rw [hs]
  clear hs
  revert hpre
  induction pre with
  | nil =>
    intro _
    simp [runSteps, hf]
  | cons p ps ih =>
    intro hpre
    have hp : f p = none := hpre p (by simp)
    have ihh := ih (fun q hq => hpre q (by simp [hq]))
    simp [runSteps, hp, ihh]

/-- Witness for C6: an exception raised while fitting `model1`
(line 125) leaves exactly the 31 earlier statements executed and
propagates unchanged. -/
theorem exception_aborts_rest_witness :
    runSteps (fun st => if st.line = 125 then some "MemoryError" else none) script
      = (script.take 31, some "MemoryError") :=
  exception_aborts_rest _ (script.take 31) (script.drop 32)
    ⟨125, .regression, "model1"⟩ "MemoryError" (by decide) (by decide) (by decide)

/-- C4: each grouped summary is faithful: in every one of the six
tables, a row's mean column equals the arithmetic mean of its source
column over exactly the rows of that group, its count column equals the
number of such rows, and the by-gender grouping has one row per gender
value occurring in the data. -/
theorem grouped_summaries_correct (rows : List CleanRow) :
    (∀ e : BaseAgg, e ∈ summary_base rows →
        e.meanBasePay
            = mean ((rows.filter (fun r => r.gender = e.gender)).map (fun r => r.basePay))
          ∧ e.cnt = (rows.filter (fun r => r.gender = e.gender)).length)
    ∧ ((summary_base rows).map (fun e => e.gender)).Nodup
    ∧ (∀ r ∈ rows, r.gender ∈ (summary_base rows).map (fun e => e.gender))
    ∧ (∀ e : TotalAgg, e ∈ summary_total rows →
        e.meanTotalPay
            = mean ((rows.filter (fun r => r.gender = e.gender)).map (fun r => r.totalPay))
          ∧ e.cnt = (rows.filter (fun r => r.gender = e.gender)).length)
    ∧ (∀ e : BonusAgg, e ∈ summary_bonus rows →
        e.meanBonus
            = mean ((rows.filter (fun r => r.gender = e.gender)).map (fun r => r.bonus))
          ∧ e.cnt = (rows.filter (fun r => r.gender = e.gender)).length)
    ∧ (∀ e : PerfAgg, e ∈ summary_perf rows →
        e.meanPerf
            = mean ((rows.filter (fun r => r.gender = e.gender)).map (fun r => r.perfEval))
          ∧ e.cnt = (rows.filter (fun r => r.gender = e.gender)).length)
    ∧ (∀ e : DeptAgg, e ∈ summary_dept rows →
        e.meanTotalPay
            = mean ((rows.filter (fun r => (r.dept, r.gender) = (e.dept, e.gender))).map
                (fun r => r.totalPay))
          ∧ e.cnt = (rows.filter (fun r => (r.dept, r.gender) = (e.dept, e.gender))).length)
    ∧ (∀ e : JobAgg, e ∈ summary_job rows →
        e.meanTotalPay
            = mean ((rows.filter (fun r => (r.jobTitle, r.gender) = (e.jobTitle, e.gender))).map
                (fun r => r.totalPay))
          ∧ e.cnt
            = (rows.filter (fun r => (r.jobTitle, r.gender) = (e.jobTitle, e.gender))).length) := by
  refine ⟨?_, ?_, ?_, ?_, ?_, ?_, ?_, ?_⟩
  · intro e he
    rcases List.mem_map.mp he with ⟨⟨k, bucket⟩, hg, rfl⟩
    have hb := groupBy_mem _ rows k bucket hg
    subst hb
    exact ⟨rfl, rfl⟩
  · have h := nodup_map_fst_foldl (fun r : CleanRow => r.gender) rows [] (by simp)
    simpa [summary_base, groupBy, List.map_map, Function.comp] using h
  · intro r hr
    have h := mem_map_fst_groupBy (fun r : CleanRow => r.gender) rows r hr
    simpa [summary_base, List.map_map, Function.comp] using h
  · intro e he
    rcases List.mem_map.mp he with ⟨⟨k, bucket⟩, hg, rfl⟩
    have hb := groupBy_mem _ rows k bucket hg
    subst hb
    exact ⟨rfl, rfl⟩
  · intro e he
    rcases List.mem_map.mp he with ⟨⟨k, bucket⟩, hg, rfl⟩
    have hb := groupBy_mem _ rows k bucket hg
    subst hb
    exact ⟨rfl, rfl⟩
  · intro e he
    rcases List.mem_map.mp he with ⟨⟨k, bucket⟩, hg, rfl⟩
    have hb := groupBy_mem _ rows k bucket hg
    subst hb
    exact ⟨rfl, rfl⟩
  · intro e he
    rw [summary_dept, mem_sortBy] at he
    rcases List.mem_map.mp he with ⟨⟨k, bucket⟩, hg, rfl⟩
    have hb := groupBy_mem _ rows k bucket hg
    subst hb
    exact ⟨rfl, rfl⟩
  · intro e he
    rw [summary_job, mem_sortBy] at he
    rcases List.mem_map.mp he with ⟨⟨k, bucket⟩, hg, rfl⟩
    have hb := groupBy_mem _ rows k bucket hg
    subst hb
    exact ⟨rfl, rfl⟩

/-- A three-row concrete dataset for evaluating the grouped summaries. -/
def rows0 : List CleanRow :=
  [ clean ⟨"Engineer", "Male", some 30, 4, "College", "Sales", 2, 100, 10⟩
  , clean ⟨"Engineer", "Female", some 40, 5, "PhD", "Sales", 3, 90, 6⟩
  , clean ⟨"Manager", "Female", some 28, 3, "College", "Ops", 1, 110, 0⟩ ]

/-- Witness for C4: on `rows0`, the Female row of `summary_base` has
mean base pay (90+110)/2 = 100 and count 2, as filtering gives. -/
theorem grouped_summaries_correct_witness :
    ({ gender := "Female", meanBasePay := 100, medBasePay := 100, cnt := 2 } : BaseAgg)
        ∈ summary_base rows0
    ∧ (100:ℚ) = mean ((rows0.filter (fun r => r.gender = "Female")).map (fun r => r.basePay))
    ∧ 2 = (rows0.filter (fun r => r.gender = "Female")).length := by
  have hlist : summary_base rows0
      = [{ gender := "Male", meanBasePay := 100, medBasePay := 100, cnt := 1 },
         { gender := "Female", meanBasePay := 100, medBasePay := 100, cnt := 2 }] := by
    simp [summary_base, rows0, groupBy, addToGroup, mean, median, sortBy, insertBy, clean]
    norm_num
    simp
  have hm : ({ gender := "Female", meanBasePay := 100, medBasePay := 100, cnt := 2 } : BaseAgg)
      ∈ summary_base rows0 := by
    rw [hlist]
    simp
  exact ⟨hm, ((grouped_summaries_correct rows0).1 _ hm).1,
    ((grouped_summaries_correct rows0).1 _ hm).2⟩

end GenderPayGap
